import Mathlib

/-!
Verification of pkg/action/recipients.go (gopass recipient management).

The Go code is shallowly embedded: time instants and durations are integers
(seconds), Go errors are an inductive type compared by identity, external
collaborators (crypto backend, store, terminal prompts) are oracles passed in
as structure fields, and each command is a pure function from those oracles
and its arguments to an outcome plus the relevant observable traces.
-/

namespace Gopass

/-- Errors returned by collaborators. The checksum drift sentinel
(sub.ErrRecipientChecksumChanged) is compared by identity in the Go code,
so it is a dedicated constructor; everything else is an opaque message. -/
inductive GoError where
  | checksumChanged
  | userAborted
  | other (msg : String)
deriving DecidableEq, Repr

/-- Outcome of renderExpirationNotice: the pair (notice, warn) from the Go
function, with warn = true exactly when the notice is not the empty string.
The constructor expiredAt carries the expiration instant shown in the
message "expired at %s"; expiringIn carries the truncated duration and the
instant from "expiring in ~%s at %s". -/
inductive Notice where
  | nothing
  | expiredAt (e : Int)
  | expiringIn (truncated : Int) (e : Int)
deriving DecidableEq, Repr

/-- Embedding of renderExpirationNotice (recipients.go:82-93). Time instants
are integer seconds; expirationDate = none models time.Time.IsZero (keys
valid forever). time.Now().After(e) is the strict comparison now > e;
e.Before(now + threshold) is strict; time.Until(e).Truncate(time.Hour)
truncates toward zero to whole hours (3600 s). -/
def renderExpirationNotice (now : Int) (expirationDate : Option Int)
    (warnThreshold : Int) : Notice :=
  match expirationDate with
  | Option.none => Notice.nothing
  | Option.some e =>
    if now > e then Notice.expiredAt e
    else if e < now + warnThreshold then
      Notice.expiringIn ((e - now).tdiv 3600) e
    else Notice.nothing

/-- A key warns exactly when the Go function returns warn = true. -/
def warns (now : Int) (expirationDate : Option Int) (warnThreshold : Int) : Bool :=
  renderExpirationNotice now expirationDate warnThreshold ≠ Notice.nothing

/-- Result of the batch expiration audit RecipientsPrintExpiration:
ok (nil), keysExpiring (the "key(s) expired/expiring" error), or the
propagated per-key lookup error from ExpirationDateFromKey. -/
inductive AuditResult where
  | ok
  | keysExpiring
  | lookupFailed (e : GoError)
deriving DecidableEq, Repr

/-- The recipient loop of RecipientsPrintExpiration (recipients.go:64-75):
expOf is crypto.ExpirationDateFromKey; a lookup error returns immediately,
otherwise hasErr accumulates whether any key warned so far. -/
def printExpirationLoop (now warnThreshold : Int)
    (expOf : String → Except GoError (Option Int)) :
    List String → Bool → Except GoError Bool
  | [], hasErr => Except.ok hasErr
  | r :: rest, hasErr =>
    match expOf r with
    | Except.error e => Except.error e
    | Except.ok exp =>
      printExpirationLoop now warnThreshold expOf rest
        (hasErr || warns now exp warnThreshold)

/-- Embedding of RecipientsPrintExpiration (recipients.go:53-80) on the
recipient list of the target store: after the loop, hasErr = true yields the
expiration error, hasErr = false yields nil. -/
def recipientsPrintExpiration (now warnThreshold : Int)
    (expOf : String → Except GoError (Option Int))
    (recipients : List String) : AuditResult :=
  match printExpirationLoop now warnThreshold expOf recipients false with
  | Except.error e => AuditResult.lookupFailed e
  | Except.ok true => AuditResult.keysExpiring
  | Except.ok false => AuditResult.ok

/-- Personas of the two interactive confirmations that occur in the add and
remove loops: the add prompt "Do you want to add %s as a recipient to the
store %s?" (carrying the formatted key and the store) and the remove-self
prompt "Do you want to remove yourself (%s) from the recipients?". -/
inductive Prompt where
  | addConfirm (formattedKey store : String)
  | selfRemoveConfirm (r : String)
deriving DecidableEq, Repr

/-- Oracle for the crypto backend used by the mutation workflows. -/
structure Crypto where
  findPublicKeys : String → Except GoError (List String)
  findPrivateKeys : String → Except GoError (List String)
  fingerprint : String → String
  formatKey : String → String

/-- Environment of RecipientsAdd / RecipientsRemove: the crypto oracle, the
answers of termio.AskForConfirmation, and the result of the storage
commit (s.Store.AddRecipient / RemoveRecipient) per (store, recipient). -/
structure MutEnv where
  crypto : Crypto
  confirm : Prompt → Bool
  commitErr : String → String → Option GoError

/-- Fate of one candidate in a mutation loop: skipped (continue), committed
with the exact recipient string written to the store, or a fatal storage
error that aborts the whole command. -/
inductive StepResult where
  | skipped
  | committed (recp : String)
  | fatal (e : GoError)
deriving DecidableEq, Repr

/-- Shared tail of both loops (recipients.go:133-152 / 205-224): public-key
lookup, the force fallback, the no-match skip, and the resolution
recp := r; if len(keys) > 0 then recp = Fingerprint(keys[0]). The lookup
error path with force sets keys = [r], as the Go code does. -/
def resolveKeys (env : MutEnv) (force : Bool) (r : String) :
    Option (List String) :=
  match env.crypto.findPublicKeys r with
  | Except.error _ => if force then Option.some [r] else Option.none
  | Except.ok keys =>
    if keys.isEmpty && !force then Option.none else Option.some keys

/-- Resolution of a candidate to the committed recipient string, applied once
the candidate survives resolveKeys. -/
def resolvedRecipient (env : MutEnv) (r : String) : List String → String
  | [] => r
  | k :: _ => env.crypto.fingerprint k

/-- One iteration of the RecipientsAdd loop body (recipients.go:132-162). -/
def addStep (env : MutEnv) (store : String) (force : Bool) (r : String) :
    StepResult :=
  match resolveKeys env force r with
  | Option.none => StepResult.skipped
  | Option.some keys =>
    let recp := resolvedRecipient env r keys
    if !(env.confirm (Prompt.addConfirm (env.crypto.formatKey recp) store)) then
      StepResult.skipped
    else
      match env.commitErr store recp with
      | Option.some e => StepResult.fatal e
      | Option.none => StepResult.committed recp

/-- Tail of one RecipientsRemove iteration after the self-removal check
(recipients.go:205-230): lookup, resolution and commit; ps is the list of
prompts already issued for this candidate. Note there is no per-candidate
confirmation in this tail. -/
def removeStepSearch (env : MutEnv) (store : String) (force : Bool)
    (r : String) (ps : List Prompt) : StepResult × List Prompt :=
  match resolveKeys env force r with
  | Option.none => (StepResult.skipped, ps)
  | Option.some keys =>
    let recp := resolvedRecipient env r keys
    match env.commitErr store recp with
    | Option.some e => (StepResult.fatal e, ps)
    | Option.none => (StepResult.committed recp, ps)

/-- One iteration of the RecipientsRemove loop body (recipients.go:195-230),
returning the fate of the candidate together with the prompts issued for it.
FindPrivateKeys errors are ignored (err == nil guards the whole self-check);
with err == nil and a nonempty match list the self-removal confirmation is
asked, and declining it skips the candidate. -/
def removeStep (env : MutEnv) (store : String) (force : Bool) (r : String) :
    StepResult × List Prompt :=
  match env.crypto.findPrivateKeys r with
  | Except.ok kl =>
    if kl.isEmpty then removeStepSearch env store force r []
    else if env.confirm (Prompt.selfRemoveConfirm r) then
      removeStepSearch env store force r [Prompt.selfRemoveConfirm r]
    else (StepResult.skipped, [Prompt.selfRemoveConfirm r])
  | Except.error _ => removeStepSearch env store force r []

/-- Outcome of a whole mutation command: success with the count reported in
"Added/Removed %d recipients", the NoKeyMutated failure ("no key added" /
"no key removed"), or an aborting storage failure (ExitRecipients). -/
inductive MutOutcome where
  | ok (count : Nat)
  | noKeyMutated
  | storageFailure (e : GoError)
deriving DecidableEq, Repr

/-- The candidate loop of RecipientsAdd, threading the added counter. -/
def addLoop (env : MutEnv) (store : String) (force : Bool) :
    List String → Nat → Except GoError Nat
  | [], added => Except.ok added
  | r :: rest, added =>
    match addStep env store force r with
    | StepResult.skipped => addLoop env store force rest added
    | StepResult.committed _ => addLoop env store force rest (added + 1)
    | StepResult.fatal e => Except.error e

/-- The candidate loop of RecipientsRemove, threading the removed counter. -/
def removeLoop (env : MutEnv) (store : String) (force : Bool) :
    List String → Nat → Except GoError Nat
  | [], removed => Except.ok removed
  | r :: rest, removed =>
    match (removeStep env store force r).1 with
    | StepResult.skipped => removeLoop env store force rest removed
    | StepResult.committed _ => removeLoop env store force rest (removed + 1)
    | StepResult.fatal e => Except.error e

/-- Embedding of RecipientsAdd (recipients.go:110-170) on an explicit
candidate list: run the loop, then added < 1 fails with "no key added". -/
def recipientsAdd (env : MutEnv) (store : String) (force : Bool)
    (recipients : List String) : MutOutcome :=
  match addLoop env store force recipients 0 with
  | Except.error e => MutOutcome.storageFailure e
  | Except.ok n => if n < 1 then MutOutcome.noKeyMutated else MutOutcome.ok n

/-- Embedding of RecipientsRemove (recipients.go:173-239) on an explicit
candidate list: run the loop, then removed < 1 fails with "no key removed". -/
def recipientsRemove (env : MutEnv) (store : String) (force : Bool)
    (recipients : List String) : MutOutcome :=
  match removeLoop env store force recipients 0 with
  | Except.error e => MutOutcome.storageFailure e
  | Except.ok n => if n < 1 then MutOutcome.noKeyMutated else MutOutcome.ok n

/-- Candidates of a list that end in a successful commit. -/
def countCommittedAdd (env : MutEnv) (store : String) (force : Bool)
    (rs : List String) : Nat :=
  rs.countP fun r =>
    match addStep env store force r with
    | StepResult.committed _ => true
    | _ => false

/-- Candidates of a list that end in a successful removal commit. -/
def countCommittedRemove (env : MutEnv) (store : String) (force : Bool)
    (rs : List String) : Nat :=
  rs.countP fun r =>
    match (removeStep env store force r).1 with
    | StepResult.committed _ => true
    | _ => false

/-- First fatal storage error the add loop would hit, if any. -/
def firstFatalAdd (env : MutEnv) (store : String) (force : Bool) :
    List String → Option GoError
  | [] => Option.none
  | r :: rest =>
    match addStep env store force r with
    | StepResult.fatal e => Option.some e
    | _ => firstFatalAdd env store force rest

/-- First fatal storage error the remove loop would hit, if any. -/
def firstFatalRemove (env : MutEnv) (store : String) (force : Bool) :
    List String → Option GoError
  | [] => Option.none
  | r :: rest =>
    match (removeStep env store force r).1 with
    | StepResult.fatal e => Option.some e
    | _ => firstFatalRemove env store force rest

/-- Result of cui.GetSelection as consumed by the selection helpers: the Go
action string "default" or "show" accepts the highlighted entry, any other
string falls into the default branch and aborts. -/
inductive SelAction where
  | accept
  | show
  | abort
deriving DecidableEq, Repr

/-- Embedding of recipientsSelectForRemoval (recipients.go:287-308): ids is
s.Store.ListRecipients of the target store, act and sel are the result of
cui.GetSelection over the formatted choices. An empty choice list returns
nil, nil before any selection; accept and show return the single selected
raw id; anything else is the "user aborted" ExitAborted error. The UI
always reports an index into the choices, hence the getD default is never
read on real runs. -/
def recipientsSelectForRemoval (ids : List String) (act : SelAction)
    (sel : Nat) : Except GoError (List String) :=
  if ids.isEmpty then Except.ok []
  else
    match act with
    | SelAction.accept => Except.ok [ids.getD sel ""]
    | SelAction.show => Except.ok [ids.getD sel ""]
    | SelAction.abort => Except.error GoError.userAborted

/-- Embedding of recipientsSelectForAdd (recipients.go:310-331): kl is the
list returned by crypto.FindPublicKeys with its error discarded (an error
leaves kl empty), and the selected raw key is returned. -/
def recipientsSelectForAdd (kl : List String) (act : SelAction)
    (sel : Nat) : Except GoError (List String) :=
  if kl.isEmpty then Except.ok []
  else
    match act with
    | SelAction.accept => Except.ok [kl.getD sel ""]
    | SelAction.show => Except.ok [kl.getD sel ""]
    | SelAction.abort => Except.error GoError.userAborted

/-- Oracle for one sub store as seen by RecipientsUpdate: the pair returned
by subs.GetRecipients(ctx, "") — the freshly computed list together with an
optional error — the identity file of its crypto backend, and the result of
subs.SetRecipients. -/
structure SubNode where
  fetchList : List String
  fetchErr : Option GoError
  idFile : String
  setErr : Option GoError

/-- Persisted recipient-hash configuration, keyed by (alias, idFile) as
s.cfg.GetRecipientHash is. -/
abbrev Hashes := List ((String × String) × String)

/-- Embedding of s.cfg.GetRecipientHash: the stored hash, or the empty
string when none is recorded for the pair. -/
def getRecipientHash (h : Hashes) (als idFile : String) : String :=
  match h.lookup (als, idFile) with
  | Option.some v => v
  | Option.none => ""

/-- Modelled from the spec: the persistence effect of subs.SetRecipients
(pkg/store/sub, not under src): on success the new list checksum is
recorded under (alias, idFile) — "persist new list + freshly computed
checksum atomically". -/
def setRecipientHash (h : Hashes) (als idFile checksum : String) : Hashes :=
  ((als, idFile), checksum) :: h.filter fun e => e.1 ≠ (als, idFile)

/-- Environment of RecipientsUpdate: s.Store.GetSubStore per alias (none
models both a lookup error and a nil sub store, which the code treats
alike), the answer of the single per-node confirmation (keyed by the
displayed alias, which is the sentinel for the root), and the checksum
function used by the modelled SetRecipients persistence. -/
structure UpdateEnv where
  getSub : String → Option SubNode
  confirm : String → Bool
  checksumOf : List String → String

/-- Displayed alias of a node: the Go code rewrites the empty root alias to
the sentinel before prompting. -/
def displayAlias (als : String) : String :=
  if als = "" then "<root>" else als

/-- Confirmation half of one RecipientsUpdate iteration
(recipients.go:261-275): prompt with the displayed alias, declining skips
the node with no write, accepting calls SetRecipients whose error is fatal,
otherwise the hash store is updated and changed incremented. -/
def updateConfirm (env : UpdateEnv) (als : String) (subs : SubNode)
    (st : Nat × Hashes) : Except GoError (Nat × Hashes) :=
  if !(env.confirm (displayAlias als)) then Except.ok st
  else
    match subs.setErr with
    | Option.some e => Except.error e
    | Option.none =>
      Except.ok (st.1 + 1,
        setRecipientHash st.2 als subs.idFile (env.checksumOf subs.fetchList))

/-- One RecipientsUpdate iteration (recipients.go:248-276): a failed or nil
GetSubStore skips the node; a fetch error other than the checksum drift
sentinel aborts the whole walk; a drift error proceeds to confirmation; a
clean fetch with a recorded hash skips; a clean fetch with no recorded hash
proceeds to confirmation. -/
def updateNode (env : UpdateEnv) (als : String) (st : Nat × Hashes) :
    Except GoError (Nat × Hashes) :=
  match env.getSub als with
  | Option.none => Except.ok st
  | Option.some subs =>
    match subs.fetchErr with
    | Option.some e =>
      if e ≠ GoError.checksumChanged then Except.error e
      else updateConfirm env als subs st
    | Option.none =>
      if getRecipientHash st.2 als subs.idFile ≠ "" then Except.ok st
      else updateConfirm env als subs st

/-- The alias walk of RecipientsUpdate. -/
def updateLoop (env : UpdateEnv) : List String → Nat × Hashes →
    Except GoError (Nat × Hashes)
  | [], st => Except.ok st
  | a :: rest, st =>
    match updateNode env a st with
    | Except.error e => Except.error e
    | Except.ok st2 => updateLoop env rest st2

/-- Comparison used by the mount-point ordering: alias length. -/
def lenLE (a b : String) : Prop := a.length ≤ b.length

instance : DecidableRel lenLE := fun a b => Nat.decLe a.length b.length

instance : IsTotal String lenLE := ⟨fun a b => Nat.le_total a.length b.length⟩

instance : IsTrans String lenLE := ⟨fun _ _ _ hab hbc => Nat.le_trans hab hbc⟩

/-- Modelled from the spec: store.ByPathLen (pkg/store, not under src)
orders aliases by ascending alias length. -/
def byPathLen (mps : List String) : List String :=
  mps.insertionSort lenLE

/-- The enumeration order of RecipientsUpdate (recipients.go:245-247):
sort.Sort(store.ByPathLen(mps)) followed by ranging over append(mps, ""). -/
def updateOrder (mps : List String) : List String :=
  byPathLen mps ++ [""]

/-- Embedding of RecipientsUpdate (recipients.go:242-285): walk the
enumerated aliases from changed = 0 and the given persisted hashes; the
command always returns nil when the walk completes, whatever the count. -/
def recipientsUpdate (env : UpdateEnv) (mps : List String) (hashes : Hashes) :
    Except GoError (Nat × Hashes) :=
  updateLoop env (updateOrder mps) (0, hashes)

/-! ## Theorems -/

/-- Claim C1 fails as stated: RecipientsUpdate appends the root (empty
alias) AFTER the sorted mount aliases, so with the single mount "teamA" the
walk order is ["teamA", ""] — the root is processed strictly later than the
longer alias "teamA", and the enumeration as a whole is not in ascending
order of alias length. -/
theorem updateOrder_root_last_cex :
    updateOrder ["teamA"] = ["teamA", ""] ∧
    ¬ (updateOrder ["teamA"]).Pairwise lenLE := by
  constructor
  · rfl
  · decide

/-- Claim C1 (amended): during reconciliation the store nodes are enumerated
as the mount aliases in ascending order of alias length (a length-sorted
permutation of the mount points) followed by the root (empty alias) LAST —
so the root is processed no earlier than any mount alias, not no later. -/
theorem updateOrder_sorted_mounts_then_root (mps : List String) :
    updateOrder mps = byPathLen mps ++ [""] ∧
    (byPathLen mps).Pairwise lenLE ∧
    (byPathLen mps).Perm mps ∧
    (updateOrder mps).getLast? = Option.some "" := by
  refine ⟨rfl, ?_, ?_, ?_⟩
  · exact List.sorted_insertionSort lenLE mps
  · exact List.perm_insertionSort lenLE mps
  · simp [updateOrder]

/-- Claim C3 fails at the boundary: with expiration set to e = 0, now = 0
(so now ≥ e) and warn threshold 0, the evaluation returns no warning at
all — time.Now().After(e) is strict, so an exactly-now-expiring key falls
through to the threshold branch, which also declines here. -/
theorem renderExpirationNotice_boundary_cex :
    (0 : Int) ≥ 0 ∧
    renderExpirationNotice 0 (Option.some 0) 0 = Notice.nothing := by
  exact ⟨le_refl 0, rfl⟩

/-- Claim C3 (amended): for every set expiration e and every warn threshold,
the evaluation returns the expired-at warning exactly for now STRICTLY
after e; at the boundary now = e the expired branch is not taken and the
key warns only through the threshold branch, with an expiring-in notice
when e < now + warnThreshold and no warning otherwise. -/
theorem renderExpirationNotice_expired_strict (now e t : Int) :
    (now > e →
      renderExpirationNotice now (Option.some e) t = Notice.expiredAt e) ∧
    (now = e →
      renderExpirationNotice now (Option.some e) t =
        if e < now + t then Notice.expiringIn ((e - now).tdiv 3600) e
        else Notice.nothing) := by
  constructor
  · intro h
    simp [renderExpirationNotice, h]
  · intro h
    subst h
    simp [renderExpirationNotice]

/-- Witness for the amended C3 theorem at now = 10, e = 3, threshold 0. -/
theorem renderExpirationNotice_expired_strict_witness :
    (10 : Int) > 3 ∧
    renderExpirationNotice 10 (Option.some 3) 0 = Notice.expiredAt 3 :=
  ⟨by decide, (renderExpirationNotice_expired_strict 10 3 0).1 (by decide)⟩

/-- Helper: some recipient of the list resolves and warns. -/
def anyWarned (now t : Int) (expOf : String → Except GoError (Option Int))
    (rs : List String) : Bool :=
  rs.any fun r =>
    match expOf r with
    | Except.ok exp => warns now exp t
    | Except.error _ => false

theorem printExpirationLoop_all_ok (now t : Int)
    (expOf : String → Except GoError (Option Int)) (rs : List String) :
    ∀ b : Bool, (∀ r ∈ rs, ∃ exp, expOf r = Except.ok exp) →
      printExpirationLoop now t expOf rs b =
        Except.ok (b || anyWarned now t expOf rs) := by
  induction rs with
  | nil => intro b _; simp [printExpirationLoop, anyWarned]
  | cons r rest ih =>
    intro b h
    obtain ⟨exp, hx⟩ := h r (by simp)
    have ht := ih (b || warns now exp t) fun q hq => h q (by simp [hq])
    simp only [printExpirationLoop, hx, ht, anyWarned, List.any_cons]
    simp [hx, Bool.or_assoc, anyWarned]

theorem printExpirationLoop_first_error (now t : Int)
    (expOf : String → Except GoError (Option Int)) (pre : List String)
    (r : String) (rest : List String) (e : GoError) :
    ∀ b : Bool, (∀ p ∈ pre, ∃ exp, expOf p = Except.ok exp) →
      expOf r = Except.error e →
      printExpirationLoop now t expOf (pre ++ r :: rest) b = Except.error e := by
  induction pre with
  | nil =>
    intro b _ hr
    simp [printExpirationLoop, hr]
  | cons p ps ih =>
    intro b h hr
    obtain ⟨exp, hx⟩ := h p (by simp)
    simp only [List.cons_append, printExpirationLoop, hx]
    exact ih _ (fun q hq => h q (by simp [hq])) hr

/-- Claim C6: when every per-key expiration lookup succeeds, the batch audit
fails with the keys-expiring error exactly when at least one key warned, and
returns success exactly when none did; and as soon as one lookup errors
(after any all-ok prefix) the whole audit returns that lookup error, whatever
recipients remain after it — they are never examined. -/
theorem recipientsPrintExpiration_spec (now t : Int)
    (expOf : String → Except GoError (Option Int)) :
    (∀ rs : List String, (∀ r ∈ rs, ∃ exp, expOf r = Except.ok exp) →
      (recipientsPrintExpiration now t expOf rs = AuditResult.keysExpiring ↔
        ∃ r ∈ rs, ∃ exp, expOf r = Except.ok exp ∧ warns now exp t = true) ∧
      (recipientsPrintExpiration now t expOf rs = AuditResult.ok ↔
        ¬ ∃ r ∈ rs, ∃ exp, expOf r = Except.ok exp ∧ warns now exp t = true)) ∧
    (∀ pre r rest e, (∀ p ∈ pre, ∃ exp, expOf p = Except.ok exp) →
      expOf r = Except.error e →
      recipientsPrintExpiration now t expOf (pre ++ r :: rest) =
        AuditResult.lookupFailed e) := by
  have hwarn : ∀ rs : List String,
      (∀ r ∈ rs, ∃ exp, expOf r = Except.ok exp) →
      (anyWarned now t expOf rs = true ↔
        ∃ r ∈ rs, ∃ exp, expOf r = Except.ok exp ∧ warns now exp t = true) := by
    intro rs h
    unfold anyWarned
    rw [List.any_eq_true]
    constructor
    · rintro ⟨r, hr, hw⟩
      obtain ⟨exp, hx⟩ := h r hr
      rw [hx] at hw
      exact ⟨r, hr, exp, hx, hw⟩
    · rintro ⟨r, hr, exp, hx, hw⟩
      refine ⟨r, hr, ?_⟩
      rw [hx]
      exact hw
  constructor
  · intro rs h
    have hloop := printExpirationLoop_all_ok now t expOf rs false h
    constructor
    · unfold recipientsPrintExpiration
      rw [hloop]
      rcases hb : anyWarned now t expOf rs with _ | _
      · simp only [Bool.false_or, hb]
        constructor
        · intro hx; exact absurd hx (by simp)
        · intro hx
          exact absurd ((hwarn rs h).2 hx) (by simp [hb])
      · simp only [Bool.false_or, hb]
        simp only [true_iff]
        exact (hwarn rs h).1 hb
    · unfold recipientsPrintExpiration
      rw [hloop]
      rcases hb : anyWarned now t expOf rs with _ | _
      · simp only [Bool.false_or, hb]
        simp only [true_iff]
        intro hx
        exact absurd ((hwarn rs h).2 hx) (by simp [hb])
      · simp only [Bool.false_or, hb]
        constructor
        · intro hx; exact absurd hx (by simp)
        · intro hx
          exact absurd ((hwarn rs h).1 hb) hx
  · intro pre r rest e hpre hr
    unfold recipientsPrintExpiration
    rw [printExpirationLoop_first_error now t expOf pre r rest e false hpre hr]

/-- Concrete expiration oracle for the C6 witness: "old" expired long ago,
"fresh" never expires, "bad" cannot be read. -/
def auditExpOf : String → Except GoError (Option Int) := fun r =>
  if r = "bad" then Except.error (GoError.other "boom")
  else if r = "old" then Except.ok (Option.some 0)
  else Except.ok Option.none

/-- Witness for the C6 theorem: an all-ok list with one expired key makes
the audit fail with keys-expiring, and a list whose second entry fails to
resolve makes the audit return that lookup error regardless of the tail. -/
theorem recipientsPrintExpiration_spec_witness :
    recipientsPrintExpiration 100 10 auditExpOf ["fresh", "old"] =
      AuditResult.keysExpiring ∧
    recipientsPrintExpiration 100 10 auditExpOf (["fresh"] ++ "bad" :: ["old"]) =
      AuditResult.lookupFailed (GoError.other "boom") := by
  constructor
  · have h := ((recipientsPrintExpiration_spec 100 10 auditExpOf).1
      ["fresh", "old"] (by
        intro r hr
        simp only [List.mem_cons, List.mem_singleton] at hr
        rcases hr with h1 | h1 | h1
        · exact ⟨Option.none, by rw [h1]; rfl⟩
        · exact ⟨Option.some 0, by rw [h1]; rfl⟩
        · cases h1)).1
    refine h.2 ⟨"old", by simp, Option.some 0, rfl, by decide⟩
  · exact (recipientsPrintExpiration_spec 100 10 auditExpOf).2
      ["fresh"] "bad" ["old"] (GoError.other "boom")
      (by
        intro p hp
        simp only [List.mem_singleton] at hp
        exact ⟨Option.none, by rw [hp]; rfl⟩) rfl

theorem removeStepSearch_snd (env : MutEnv) (store : String) (force : Bool)
    (r : String) (ps : List Prompt) :
    (removeStepSearch env store force r ps).2 = ps := by
  unfold removeStepSearch
  rcases hk : resolveKeys env force r with _ | keys
  · rfl
  · dsimp only
    rcases hc : env.commitErr store (resolvedRecipient env r keys) with _ | e
    · rfl
    · rfl

theorem addStep_committed (env : MutEnv) (store : String) (force : Bool)
    (r recp : String)
    (h : addStep env store force r = StepResult.committed recp) :
    ∃ keys, resolveKeys env force r = Option.some keys ∧
      recp = resolvedRecipient env r keys := by
  unfold addStep at h
  rcases hk : resolveKeys env force r with _ | keys <;> rw [hk] at h
  · cases h
  · dsimp only at h
    split at h
    · cases h
    · rcases hc : env.commitErr store (resolvedRecipient env r keys) with _ | e <;>
        rw [hc] at h
      · cases h
        exact ⟨keys, rfl, rfl⟩
      · cases h

theorem removeStepSearch_committed (env : MutEnv) (store : String)
    (force : Bool) (r recp : String) (ps : List Prompt)
    (h : (removeStepSearch env store force r ps).1 = StepResult.committed recp) :
    ∃ keys, resolveKeys env force r = Option.some keys ∧
      recp = resolvedRecipient env r keys := by
  unfold removeStepSearch at h
  rcases hk : resolveKeys env force r with _ | keys <;> rw [hk] at h
  · cases h
  · dsimp only at h
    rcases hc : env.commitErr store (resolvedRecipient env r keys) with _ | e <;>
      rw [hc] at h
    · cases h
      exact ⟨keys, rfl, rfl⟩
    · cases h

theorem removeStep_committed (env : MutEnv) (store : String) (force : Bool)
    (r recp : String)
    (h : (removeStep env store force r).1 = StepResult.committed recp) :
    ∃ keys, resolveKeys env force r = Option.some keys ∧
      recp = resolvedRecipient env r keys := by
  unfold removeStep at h
  rcases hp : env.crypto.findPrivateKeys r with e | kl <;> rw [hp] at h
  · exact removeStepSearch_committed env store force r recp [] h
  · dsimp only at h
    split at h
    · exact removeStepSearch_committed env store force r recp [] h
    · split at h
      · exact removeStepSearch_committed env store force r recp _ h
      · cases h

theorem resolveKeys_shapes (env : MutEnv) (force : Bool) (r : String)
    (keys : List String)
    (h : resolveKeys env force r = Option.some keys) :
    (∃ e, env.crypto.findPublicKeys r = Except.error e ∧ force = true ∧
      keys = [r]) ∨
    (env.crypto.findPublicKeys r = Except.ok [] ∧ force = true ∧ keys = []) ∨
    (∃ k ks, env.crypto.findPublicKeys r = Except.ok (k :: ks) ∧
      keys = k :: ks) := by
  unfold resolveKeys at h
  rcases hf : env.crypto.findPublicKeys r with e | kl
  · rw [hf] at h
    rcases force with _ | _
    · simp at h
    · simp only [if_true] at h
      cases h
      exact Or.inl ⟨e, rfl, rfl, rfl⟩
  · rw [hf] at h
    rcases kl with _ | ⟨k, ks⟩
    · rcases force with _ | _
      · simp at h
      · simp only [List.isEmpty_nil, Bool.not_true, Bool.and_false,
          Bool.false_eq_true, if_false] at h
        cases h
        exact Or.inr (Or.inl ⟨rfl, rfl, rfl⟩)
    · simp only [List.isEmpty_cons, Bool.false_and, Bool.false_eq_true,
        if_false] at h
      cases h
      exact Or.inr (Or.inr ⟨k, ks, rfl, rfl⟩)

/-- Claim C4: whatever recipient string an add or remove step commits to the
store, it is the fingerprint of the FIRST public-key match when the lookup
returns one or more matches; the raw input string itself when the lookup
returns zero matches under force; and (the only remaining possibility) the
fingerprint of the raw input when the lookup itself errors under force. -/
theorem committed_recipient_resolution (env : MutEnv) (store : String)
    (force : Bool) (r recp : String)
    (h : addStep env store force r = StepResult.committed recp ∨
      (removeStep env store force r).1 = StepResult.committed recp) :
    (∃ k ks, env.crypto.findPublicKeys r = Except.ok (k :: ks) ∧
      recp = env.crypto.fingerprint k) ∨
    (env.crypto.findPublicKeys r = Except.ok [] ∧ force = true ∧ recp = r) ∨
    (∃ e, env.crypto.findPublicKeys r = Except.error e ∧ force = true ∧
      recp = env.crypto.fingerprint r) := by
  have hres : ∃ keys, resolveKeys env force r = Option.some keys ∧
      recp = resolvedRecipient env r keys := by
    rcases h with h | h
    · exact addStep_committed env store force r recp h
    · exact removeStep_committed env store force r recp h
  obtain ⟨keys, hk, hrecp⟩ := hres
  rcases resolveKeys_shapes env force r keys hk with
    ⟨e, hf, hforce, hkeys⟩ | ⟨hf, hforce, hkeys⟩ | ⟨k, ks, hf, hkeys⟩
  · subst hkeys
    exact Or.inr (Or.inr ⟨e, hf, hforce, hrecp⟩)
  · subst hkeys
    exact Or.inr (Or.inl ⟨hf, hforce, hrecp⟩)
  · subst hkeys
    exact Or.inl ⟨k, ks, hf, hrecp⟩

/-- Concrete crypto oracle: "alice" has two public-key matches K1 and K2,
nobody matches a private key, fingerprints are fp: prefixed. -/
def wcrypto : Crypto where
  findPublicKeys := fun r =>
    if r = "alice" then Except.ok ["K1", "K2"] else Except.ok []
  findPrivateKeys := fun _ => Except.ok []
  fingerprint := fun k => "fp:" ++ k
  formatKey := fun k => "<" ++ k ++ ">"

/-- Concrete mutation environment: every confirmation accepted, every
commit succeeds. -/
def wenv : MutEnv where
  crypto := wcrypto
  confirm := fun _ => true
  commitErr := fun _ _ => Option.none

/-- Witness for the C4 theorem: adding "alice", whose lookup returns
[K1, K2], commits fp:K1 — the fingerprint of the first match. -/
theorem committed_recipient_resolution_witness :
    addStep wenv "vault" false "alice" = StepResult.committed "fp:K1" ∧
    ((∃ k ks, wenv.crypto.findPublicKeys "alice" = Except.ok (k :: ks) ∧
        "fp:K1" = wenv.crypto.fingerprint k) ∨
      (wenv.crypto.findPublicKeys "alice" = Except.ok [] ∧ false = true ∧
        "fp:K1" = "alice") ∨
      (∃ e, wenv.crypto.findPublicKeys "alice" = Except.error e ∧
        false = true ∧ "fp:K1" = wenv.crypto.fingerprint "alice")) :=
  ⟨by decide,
   committed_recipient_resolution wenv "vault" false "alice" "fp:K1"
     (Or.inl (by decide))⟩

theorem addLoop_eq (env : MutEnv) (store : String) (force : Bool)
    (rs : List String) : ∀ acc : Nat,
    addLoop env store force rs acc =
      match firstFatalAdd env store force rs with
      | Option.some e => Except.error e
      | Option.none =>
        Except.ok (acc + countCommittedAdd env store force rs) := by
  induction rs with
  | nil =>
    intro acc
    simp [addLoop, firstFatalAdd, countCommittedAdd]
  | cons r rest ih =>
    intro acc
    rcases hs : addStep env store force r with _ | recp | e <;>
      simp only [addLoop, hs, firstFatalAdd, countCommittedAdd,
        List.countP_cons, ih]
    · rcases hf : firstFatalAdd env store force rest with _ | e
      · simp [hs, countCommittedAdd]
      · simp [hs]
    · rcases hf : firstFatalAdd env store force rest with _ | e
      · simp only [if_true]
        congr 1
        omega
      · simp [hs]

theorem removeLoop_eq (env : MutEnv) (store : String) (force : Bool)
    (rs : List String) : ∀ acc : Nat,
    removeLoop env store force rs acc =
      match firstFatalRemove env store force rs with
      | Option.some e => Except.error e
      | Option.none =>
        Except.ok (acc + countCommittedRemove env store force rs) := by
  induction rs with
  | nil =>
    intro acc
    simp [removeLoop, firstFatalRemove, countCommittedRemove]
  | cons r rest ih =>
    intro acc
    rcases hs : (removeStep env store force r).1 with _ | recp | e <;>
      simp only [removeLoop, hs, firstFatalRemove, countCommittedRemove,
        List.countP_cons, ih]
    · rcases hf : firstFatalRemove env store force rest with _ | e
      · simp [hs, countCommittedRemove]
      · simp [hs]
    · rcases hf : firstFatalRemove env store force rest with _ | e
      · simp only [if_true]
        congr 1
        omega
      · simp [hs]

/-- Claim C5: for both mutation commands, on a batch in which no storage
commit fails, the outcome is the NoKeyMutated failure exactly when zero
candidates were committed, and the success outcome carrying the commit
count when at least one was; unconditionally, a success outcome always
carries a count of at least one, so zero commits never yield silent
success. -/
theorem zero_commits_noKeyMutated (env : MutEnv) (store : String)
    (force : Bool) (rs : List String) :
    (firstFatalAdd env store force rs = Option.none →
      ((recipientsAdd env store force rs = MutOutcome.noKeyMutated ↔
        countCommittedAdd env store force rs = 0) ∧
      (0 < countCommittedAdd env store force rs →
        recipientsAdd env store force rs =
          MutOutcome.ok (countCommittedAdd env store force rs)))) ∧
    (∀ n, recipientsAdd env store force rs = MutOutcome.ok n → 1 ≤ n) ∧
    (firstFatalRemove env store force rs = Option.none →
      ((recipientsRemove env store force rs = MutOutcome.noKeyMutated ↔
        countCommittedRemove env store force rs = 0) ∧
      (0 < countCommittedRemove env store force rs →
        recipientsRemove env store force rs =
          MutOutcome.ok (countCommittedRemove env store force rs)))) ∧
    (∀ n, recipientsRemove env store force rs = MutOutcome.ok n → 1 ≤ n) := by
  refine ⟨?_, ?_, ?_, ?_⟩
  · intro hf
    unfold recipientsAdd
    rw [addLoop_eq env store force rs 0, hf]
    dsimp only
    rw [Nat.zero_add]
    constructor
    · rcases hc : countCommittedAdd env store force rs with _ | n
      · simp
      · simp
    · intro hpos
      rw [if_neg (by omega)]
  · intro n hn
    unfold recipientsAdd at hn
    rcases hl : addLoop env store force rs 0 with e | m <;> rw [hl] at hn
    · cases hn
    · dsimp only at hn
      split at hn
      · cases hn
      · rename_i hm
        cases hn
        omega
  · intro hf
    unfold recipientsRemove
    rw [removeLoop_eq env store force rs 0, hf]
    dsimp only
    rw [Nat.zero_add]
    constructor
    · rcases hc : countCommittedRemove env store force rs with _ | n
      · simp
      · simp
    · intro hpos
      rw [if_neg (by omega)]
  · intro n hn
    unfold recipientsRemove at hn
    rcases hl : removeLoop env store force rs 0 with e | m <;> rw [hl] at hn
    · cases hn
    · dsimp only at hn
      split at hn
      · cases hn
      · rename_i hm
        cases hn
        omega

/-- Witness for the C5 theorem: adding the sole candidate "nobody", who
matches no key, skips it and the command fails with NoKeyMutated. -/
theorem zero_commits_noKeyMutated_witness :
    firstFatalAdd wenv "vault" false ["nobody"] = Option.none ∧
    countCommittedAdd wenv "vault" false ["nobody"] = 0 ∧
    recipientsAdd wenv "vault" false ["nobody"] = MutOutcome.noKeyMutated := by
  refine ⟨by decide, by decide, ?_⟩
  exact ((zero_commits_noKeyMutated wenv "vault" false ["nobody"]).1
    (by decide)).1.2 (by decide)

/-- Environment in which the operator would decline every confirmation:
"alice" matches the single public key K1 and no private key, and commits
succeed. -/
def denyAllEnv : MutEnv where
  crypto :=
    { findPublicKeys := fun _ => Except.ok ["K1"]
      findPrivateKeys := fun _ => Except.ok []
      fingerprint := fun k => "fp:" ++ k
      formatKey := fun k => k }
  confirm := fun _ => false
  commitErr := fun _ _ => Option.none

/-- Claim C2 fails: in RecipientsRemove a candidate that matches none of the
operators private keys is committed with NO confirmation at all — here the
operator would decline every prompt, yet the removal of "alice" commits and
the prompt trace of the step is empty, so no standard per-candidate
confirmation exists. -/
theorem removeStep_commits_without_confirmation :
    (∀ p, denyAllEnv.confirm p = false) ∧
    removeStep denyAllEnv "vault" false "alice" =
      (StepResult.committed "fp:K1", []) := by
  exact ⟨fun _ => rfl, by decide⟩

/-- Claim C2 (amended): in RecipientsRemove the only per-candidate
confirmation is the self-removal one — the prompt trace of a candidate is
either empty or exactly the self-removal prompt (there is no standard
per-candidate confirmation), and when the self-removal prompt is issued,
declining it skips the candidate before any commit. -/
theorem removeStep_prompts (env : MutEnv) (store : String) (force : Bool)
    (r : String) :
    ((removeStep env store force r).2 = [] ∨
      (removeStep env store force r).2 = [Prompt.selfRemoveConfirm r]) ∧
    ((removeStep env store force r).2 = [Prompt.selfRemoveConfirm r] →
      env.confirm (Prompt.selfRemoveConfirm r) = false →
      (removeStep env store force r).1 = StepResult.skipped) := by
  unfold removeStep
  rcases hp : env.crypto.findPrivateKeys r with e | kl
  · refine ⟨Or.inl (removeStepSearch_snd env store force r []), ?_⟩
    intro hps _
    rw [removeStepSearch_snd env store force r []] at hps
    cases hps
  · dsimp only
    by_cases hkl : kl.isEmpty = true
    · rw [if_pos hkl]
      refine ⟨Or.inl (removeStepSearch_snd env store force r []), ?_⟩
      intro hps _
      rw [removeStepSearch_snd env store force r []] at hps
      cases hps
    · rw [if_neg hkl]
      by_cases hc : env.confirm (Prompt.selfRemoveConfirm r) = true
      · rw [if_pos hc]
        refine ⟨Or.inr (removeStepSearch_snd env store force r _), ?_⟩
        intro _ hcf
        rw [hcf] at hc
        cases hc
      · rw [if_neg hc]
        exact ⟨Or.inr rfl, fun _ _ => rfl⟩

/-- Environment whose candidate matches an operator private key while the
operator declines every prompt. -/
def selfMatchEnv : MutEnv where
  crypto :=
    { findPublicKeys := fun _ => Except.ok ["K1"]
      findPrivateKeys := fun _ => Except.ok ["P1"]
      fingerprint := fun k => "fp:" ++ k
      formatKey := fun k => k }
  confirm := fun _ => false
  commitErr := fun _ _ => Option.none

/-- Witness for the amended C2 theorem: "me" matches a private key, so the
self-removal prompt is issued, and since the operator declines it, the
candidate is skipped before any commit. -/
theorem removeStep_prompts_witness :
    (removeStep selfMatchEnv "vault" false "me").2 =
      [Prompt.selfRemoveConfirm "me"] ∧
    selfMatchEnv.confirm (Prompt.selfRemoveConfirm "me") = false ∧
    (removeStep selfMatchEnv "vault" false "me").1 = StepResult.skipped :=
  ⟨by decide, rfl,
   (removeStep_prompts selfMatchEnv "vault" false "me").2 (by decide) rfl⟩

/-- Claim C10: the self-removal confirmation is in the prompt trace exactly
when FindPrivateKeys succeeds with at least one match; and when
FindPrivateKeys returns an error, the error is dropped and the candidate
proceeds directly to the public-key lookup and commit tail, with no
self-removal prompt. -/
theorem selfRemoveConfirm_iff (env : MutEnv) (store : String) (force : Bool)
    (r : String) :
    (Prompt.selfRemoveConfirm r ∈ (removeStep env store force r).2 ↔
      ∃ kl, env.crypto.findPrivateKeys r = Except.ok kl ∧ kl ≠ []) ∧
    (∀ e, env.crypto.findPrivateKeys r = Except.error e →
      removeStep env store force r = removeStepSearch env store force r []) := by
  constructor
  · unfold removeStep
    rcases hp : env.crypto.findPrivateKeys r with e | kl
    · rw [removeStepSearch_snd env store force r []]
      simp only [List.not_mem_nil, false_iff]
      rintro ⟨kl, hkl, _⟩
      cases hkl
    · dsimp only
      by_cases hkl : kl.isEmpty = true
      · rw [if_pos hkl]
        rw [removeStepSearch_snd env store force r []]
        simp only [List.not_mem_nil, false_iff]
        rintro ⟨kl2, hkl2, hne⟩
        cases hkl2
        exact hne (List.isEmpty_iff.mp hkl)
      · rw [if_neg hkl]
        by_cases hc : env.confirm (Prompt.selfRemoveConfirm r) = true
        · rw [if_pos hc, removeStepSearch_snd env store force r _]
          constructor
          · intro _
            exact ⟨kl, rfl, fun hnil => hkl (by rw [hnil]; rfl)⟩
          · intro _
            exact List.mem_cons_self _ _
        · rw [if_neg hc]
          dsimp only
          constructor
          · intro _
            exact ⟨kl, rfl, fun hnil => hkl (by rw [hnil]; rfl)⟩
          · intro _
            exact List.mem_cons_self _ _
  · intro e hp
    unfold removeStep
    rw [hp]

/-- Environment whose private-key lookup fails outright. -/
def privErrEnv : MutEnv where
  crypto :=
    { findPublicKeys := fun _ => Except.ok ["K1"]
      findPrivateKeys := fun _ => Except.error (GoError.other "gpg fail")
      fingerprint := fun k => "fp:" ++ k
      formatKey := fun k => k }
  confirm := fun _ => false
  commitErr := fun _ _ => Option.none

/-- Witness for the C10 theorem: with the failing private-key lookup the
error is ignored and removing "bob" proceeds straight to the lookup-and-
commit tail with an empty prompt trace. -/
theorem selfRemoveConfirm_iff_witness :
    privErrEnv.crypto.findPrivateKeys "bob" =
      Except.error (GoError.other "gpg fail") ∧
    removeStep privErrEnv "vault" false "bob" =
      removeStepSearch privErrEnv "vault" false "bob" [] :=
  ⟨rfl,
   (selfRemoveConfirm_iff privErrEnv "vault" false "bob").2
     (GoError.other "gpg fail") rfl⟩

/-- Claim C7: per node of the reconciliation walk, a recipient fetch that
fails with the checksum-drift sentinel proceeds to the confirmation step, as
does a successful fetch with no recorded checksum; a fetch that fails with
any other error turns the node into that error; and an erroring node aborts
the whole remaining walk — the loop returns the error whatever aliases
remain after it. -/
theorem updateNode_fetch_policy (env : UpdateEnv) (als : String)
    (subs : SubNode) (st : Nat × Hashes)
    (h : env.getSub als = Option.some subs) :
    (∀ e, subs.fetchErr = Option.some e → e ≠ GoError.checksumChanged →
      updateNode env als st = Except.error e) ∧
    (subs.fetchErr = Option.some GoError.checksumChanged →
      updateNode env als st = updateConfirm env als subs st) ∧
    (subs.fetchErr = Option.none →
      getRecipientHash st.2 als subs.idFile = "" →
      updateNode env als st = updateConfirm env als subs st) ∧
    (∀ e rest, updateNode env als st = Except.error e →
      updateLoop env (als :: rest) st = Except.error e) := by
  refine ⟨?_, ?_, ?_, ?_⟩
  · intro e he hne
    unfold updateNode
    rw [h]
    dsimp only
    rw [he]
    dsimp only
    rw [if_pos hne]
  · intro he
    unfold updateNode
    rw [h]
    dsimp only
    rw [he]
    dsimp only
    rw [if_neg fun hx => hx rfl]
  · intro he hh
    unfold updateNode
    rw [h]
    dsimp only
    rw [he]
    dsimp only
    rw [if_neg fun hx => hx hh]
  · intro e rest hn
    simp only [updateLoop, hn]

/-- Concrete drifting sub store for the reconciliation witnesses. -/
def driftSub : SubNode where
  fetchList := ["fpA"]
  fetchErr := Option.some GoError.checksumChanged
  idFile := "id"
  setErr := Option.none

/-- Environment whose only mount "teamA" reports checksum drift. -/
def driftEnv : UpdateEnv where
  getSub := fun a =>
    if a = "teamA" then Option.some driftSub else Option.none
  confirm := fun _ => true
  checksumOf := fun l => toString l.length

/-- Witness for the C7 theorem: the drifting node "teamA" proceeds to the
confirmation step. -/
theorem updateNode_fetch_policy_witness :
    driftEnv.getSub "teamA" = Option.some driftSub ∧
    driftSub.fetchErr = Option.some GoError.checksumChanged ∧
    updateNode driftEnv "teamA" (0, []) =
      updateConfirm driftEnv "teamA" driftSub (0, []) :=
  ⟨rfl, rfl,
   (updateNode_fetch_policy driftEnv "teamA" driftSub (0, []) rfl).2.1 rfl⟩

theorem updateConfirm_declined (env : UpdateEnv) (als : String)
    (subs : SubNode) (st : Nat × Hashes)
    (h : env.confirm (displayAlias als) = false) :
    updateConfirm env als subs st = Except.ok st := by
  unfold updateConfirm
  rw [h]
  rfl

theorem updateNode_declined (env : UpdateEnv) (als : String)
    (st : Nat × Hashes)
    (hc : ∀ a, env.confirm a = false)
    (hf : ∀ subs, env.getSub als = Option.some subs →
      subs.fetchErr = Option.none ∨
      subs.fetchErr = Option.some GoError.checksumChanged) :
    updateNode env als st = Except.ok st := by
  unfold updateNode
  rcases hs : env.getSub als with _ | subs
  · rfl
  · dsimp only
    rcases hf subs hs with hfe | hfe <;> rw [hfe] <;> dsimp only
    · by_cases hh : getRecipientHash st.2 als subs.idFile = ""
      · rw [if_neg fun hx => hx hh]
        exact updateConfirm_declined env als subs st (hc _)
      · rw [if_pos hh]
    · rw [if_neg fun hx => hx rfl]
      exact updateConfirm_declined env als subs st (hc _)

theorem updateLoop_declined (env : UpdateEnv)
    (hc : ∀ a, env.confirm a = false)
    (hf : ∀ a subs, env.getSub a = Option.some subs →
      subs.fetchErr = Option.none ∨
      subs.fetchErr = Option.some GoError.checksumChanged) :
    ∀ (l : List String) (st : Nat × Hashes),
      updateLoop env l st = Except.ok st := by
  intro l
  induction l with
  | nil => intro st; rfl
  | cons a rest ih =>
    intro st
    simp only [updateLoop, updateNode_declined env a st hc fun subs h =>
      hf a subs h]
    exact ih st

/-- Claim C8: a reconciliation run in which the operator declines every
confirmation (and no node fails with a non-drift fetch error) performs no
write at all: it returns success with changed = 0 and the persisted
checksums exactly as they were — a successful no-op, not an error. -/
theorem recipientsUpdate_all_declined (env : UpdateEnv) (mps : List String)
    (hashes : Hashes)
    (hc : ∀ a, env.confirm a = false)
    (hf : ∀ a subs, env.getSub a = Option.some subs →
      subs.fetchErr = Option.none ∨
      subs.fetchErr = Option.some GoError.checksumChanged) :
    recipientsUpdate env mps hashes = Except.ok (0, hashes) :=
  updateLoop_declined env hc hf (updateOrder mps) (0, hashes)

/-- Clean root sub store for the C8 witness: fetch succeeds, no error. -/
def cleanRootSub : SubNode where
  fetchList := ["fpR"]
  fetchErr := Option.none
  idFile := "id"
  setErr := Option.none

/-- Node resolver of the C8 witness environment. -/
def declineGetSub (a : String) : Option SubNode :=
  if a = "teamA" then Option.some driftSub
  else if a = "" then Option.some cleanRootSub
  else Option.none

/-- Environment with a drifting mount and a clean root, whose operator
declines every confirmation. -/
def declineEnv : UpdateEnv where
  getSub := declineGetSub
  confirm := fun _ => false
  checksumOf := fun l => toString l.length

/-- Witness for the C8 theorem: declining every prompt over the drifting
mount "teamA" and the root leaves the empty hash store unchanged and
reports zero changed stores, successfully. -/
theorem recipientsUpdate_all_declined_witness :
    recipientsUpdate declineEnv ["teamA"] [] = Except.ok (0, []) :=
  recipientsUpdate_all_declined declineEnv ["teamA"] [] (fun _ => rfl)
    (by
      intro a subs h
      replace h : declineGetSub a = Option.some subs := h
      unfold declineGetSub at h
      by_cases h1 : a = "teamA"
      · rw [if_pos h1] at h
        cases h
        exact Or.inr rfl
      · rw [if_neg h1] at h
        by_cases h2 : a = ""
        · rw [if_pos h2] at h
          cases h
          exact Or.inl rfl
        · rw [if_neg h2] at h
          cases h)

theorem selectRemoval_spec (ids : List String) (act : SelAction)
    (sel : Nat) :
    (∀ l, recipientsSelectForRemoval ids act sel = Except.ok l →
      l.length ≤ 1) ∧
    (ids = [] → recipientsSelectForRemoval ids act sel = Except.ok []) ∧
    (ids ≠ [] → act ≠ SelAction.abort →
      recipientsSelectForRemoval ids act sel =
        Except.ok [ids.getD sel ""]) ∧
    (ids ≠ [] → act = SelAction.abort →
      recipientsSelectForRemoval ids act sel =
        Except.error GoError.userAborted) := by
  unfold recipientsSelectForRemoval
  by_cases hi : ids.isEmpty = true
  · rw [if_pos hi]
    refine ⟨?_, ?_, ?_, ?_⟩
    · intro l h
      cases h
      exact Nat.zero_le 1
    · intro _; rfl
    · intro hne _
      exact absurd (List.isEmpty_iff.mp hi) hne
    · intro hne _
      exact absurd (List.isEmpty_iff.mp hi) hne
  · rw [if_neg hi]
    cases act
    · refine ⟨?_, ?_, ?_, ?_⟩
      · intro l h
        cases h
        exact Nat.le_refl 1
      · intro he
        rw [he] at hi
        exact absurd rfl hi
      · intro _ _; rfl
      · intro _ habs
        cases habs
    · refine ⟨?_, ?_, ?_, ?_⟩
      · intro l h
        cases h
        exact Nat.le_refl 1
      · intro he
        rw [he] at hi
        exact absurd rfl hi
      · intro _ _; rfl
      · intro _ habs
        cases habs
    · refine ⟨?_, ?_, ?_, ?_⟩
      · intro l h
        cases h
      · intro he
        rw [he] at hi
        exact absurd rfl hi
      · intro _ hne
        exact absurd rfl hne
      · intro _ _; rfl

theorem selectAdd_spec (kl : List String) (act : SelAction) (sel : Nat) :
    (∀ l, recipientsSelectForAdd kl act sel = Except.ok l →
      l.length ≤ 1) ∧
    (kl = [] → recipientsSelectForAdd kl act sel = Except.ok []) ∧
    (kl ≠ [] → act ≠ SelAction.abort →
      recipientsSelectForAdd kl act sel = Except.ok [kl.getD sel ""]) ∧
    (kl ≠ [] → act = SelAction.abort →
      recipientsSelectForAdd kl act sel =
        Except.error GoError.userAborted) := by
  unfold recipientsSelectForAdd
  by_cases hi : kl.isEmpty = true
  · rw [if_pos hi]
    refine ⟨?_, ?_, ?_, ?_⟩
    · intro l h
      cases h
      exact Nat.zero_le 1
    · intro _; rfl
    · intro hne _
      exact absurd (List.isEmpty_iff.mp hi) hne
    · intro hne _
      exact absurd (List.isEmpty_iff.mp hi) hne
  · rw [if_neg hi]
    cases act
    · refine ⟨?_, ?_, ?_, ?_⟩
      · intro l h
        cases h
        exact Nat.le_refl 1
      · intro he
        rw [he] at hi
        exact absurd rfl hi
      · intro _ _; rfl
      · intro _ habs
        cases habs
    · refine ⟨?_, ?_, ?_, ?_⟩
      · intro l h
        cases h
        exact Nat.le_refl 1
      · intro he
        rw [he] at hi
        exact absurd rfl hi
      · intro _ _; rfl
      · intro _ habs
        cases habs
    · refine ⟨?_, ?_, ?_, ?_⟩
      · intro l h
        cases h
      · intro he
        rw [he] at hi
        exact absurd rfl hi
      · intro _ hne
        exact absurd rfl hne
      · intro _ _; rfl

/-- Claim C9: interactive selection yields at most one candidate for both
helpers: with nothing to choose from the result is an empty list and no
error; with a nonempty choice list, accept and show return exactly the one
selected element, and escaping aborts with the user-aborted error; every
successful selection has length at most one, so the batch loop never sees
more than one interactively chosen recipient. -/
theorem select_at_most_one (ids kl : List String) (act : SelAction)
    (sel : Nat) :
    (∀ l, recipientsSelectForRemoval ids act sel = Except.ok l →
      l.length ≤ 1) ∧
    (∀ l, recipientsSelectForAdd kl act sel = Except.ok l →
      l.length ≤ 1) ∧
    (ids = [] → recipientsSelectForRemoval ids act sel = Except.ok []) ∧
    (kl = [] → recipientsSelectForAdd kl act sel = Except.ok []) ∧
    (ids ≠ [] → act ≠ SelAction.abort →
      recipientsSelectForRemoval ids act sel =
        Except.ok [ids.getD sel ""]) ∧
    (kl ≠ [] → act ≠ SelAction.abort →
      recipientsSelectForAdd kl act sel = Except.ok [kl.getD sel ""]) ∧
    (ids ≠ [] → act = SelAction.abort →
      recipientsSelectForRemoval ids act sel =
        Except.error GoError.userAborted) ∧
    (kl ≠ [] → act = SelAction.abort →
      recipientsSelectForAdd kl act sel =
        Except.error GoError.userAborted) := by
  obtain ⟨r1, r2, r3, r4⟩ := selectRemoval_spec ids act sel
  obtain ⟨a1, a2, a3, a4⟩ := selectAdd_spec kl act sel
  exact ⟨r1, a1, r2, a2, r3, a3, r4, a4⟩

/-- Witness for the C9 theorem: showing entry 1 of a two-recipient store
selects exactly ["b"], and escaping the add selection aborts. -/
theorem select_at_most_one_witness :
    recipientsSelectForRemoval ["a", "b"] SelAction.show 1 =
      Except.ok ["b"] ∧
    recipientsSelectForAdd ["k"] SelAction.abort 0 =
      Except.error GoError.userAborted := by
  constructor
  · exact (select_at_most_one ["a", "b"] ["k"] SelAction.show 1).2.2.2.2.1
      (by decide) (by decide)
  · exact (select_at_most_one ["a", "b"] ["k"]
      SelAction.abort 0).2.2.2.2.2.2.2 (by decide) rfl

end Gopass
